import Mathlib

/-!
Verification of the pin-request orchestration core of the IPFS pinning
service gateway (src/main.go).

The Go source is shallowly embedded: the external HTTP transport, the
JSON codec of the ledger response, the content-identifier decoder of the
cid library and the storage-cluster client are modelled as explicit
parameters (oracles describing their outcome for the one call the handler
makes), while every decision the Go code itself takes - authentication,
pool-id parsing, request translation, the error branches, the per-cid pin
loop and the response construction - is translated function by function.
Machine integers are modelled as Int with the 64-bit range check that
strconv.Atoi performs.  A Go nil-error dereference is modelled as an
Except.error carrying a GoPanic marker.
-/

namespace IpfsPinGateway

/-! ### String constants appearing in main.go -/

def bearerTag : String := "Bearer "

def secretToken : String := "your-secret-token"

def queuedStatus : String := "queued"

def storageWork : String := "storage"

def ipfsEngine : String := "IPFS"

def storerKey : String := "storer"

def badRequestReason : String := "BAD_REQUEST"

def internalErrorReason : String := "INTERNAL_SERVER_ERROR"

def invalidPoolDetails : String := "Invalid pool ID configuration"

def failedPinDetails : String := "Failed to process pin request"

def unauthorizedText : String := "Unauthorized"

def blockchainFailedText : String := "Blockchain interaction failed"

def decodeFailedText : String := "Failed to decode blockchain response"

def delegatePre : String := "/dns4/pools"

def delegateSuf : String := ".functionyard.fula.network/tcp/4001/p2p/QmServicePeerId"

def pinnedOkPre : String := "CIDs pinned successfully: "

def pinFailPre : String := "Failed to pin CID "

def pinFailMid : String := ": "

def emptyBodyUnmarshalErr : String := "unexpected end of JSON input"

/-! ### Data model (the struct types of main.go, fields named as their JSON tags) -/

structure ManifestJob where
  work : String
  engine : String
  uri : String
deriving DecidableEq, Repr

structure ManifestMetadata where
  job : ManifestJob
deriving DecidableEq, Repr

structure ManifestBatchUploadRequest where
  cid : List String
  pool_id : Int
  replication_factor : List Int
  manifest_metadata : List ManifestMetadata
deriving DecidableEq, Repr

structure ManifestBatchUploadResponse where
  pool_id : Int
  storer : String
  cid : List String
deriving DecidableEq, Repr

structure Pin where
  cid : String
  name : String
  origins : List String
  meta : List (String × String)
deriving DecidableEq, Repr

structure PinStatus where
  requestid : String
  status : String
  created : String
  pin : Pin
  delegates : List String
  info : List (String × String)
deriving DecidableEq, Repr

/-- The zero value of the Go struct Pin (what `var pinRequest Pin` declares). -/
def zeroPin : Pin := { cid := "", name := "", origins := [], meta := [] }

/-! ### Go string helpers (kernel-reducible versions of strings.HasPrefix / TrimPrefix) -/

/-- Whether the first list is a prefix of the second, as Boolean char comparison. -/
def listIsPre : List Char → List Char → Bool
  | [], _ => true
  | _ :: _, [] => false
  | a :: as, b :: bs => a == b && listIsPre as bs

/-- strings.HasPrefix s p. -/
def strHasPre (s p : String) : Bool := listIsPre p.toList s.toList

/-- strings.TrimPrefix s p : s without the leading p when present, s unchanged otherwise. -/
def strTrimPre (s p : String) : String :=
  if strHasPre s p then String.mk (s.toList.drop p.toList.length) else s

/-- fmt.Sprintf of an int with verb v or d: decimal rendering. -/
def fmtInt (n : Int) : String := toString n

def spaceSep : String := " "

/-- fmt.Sprintf verb v applied to a Go string slice: space-separated inside square brackets. -/
def fmtStrSlice (xs : List String) : String :=
  "[" ++ String.intercalate spaceSep xs ++ "]"

/-- strconv.Atoi: optional sign, at least one decimal digit, 64-bit signed range. -/
def goAtoi (s : String) : Option Int :=
  let cs := s.toList
  let signDigits : Bool × List Char :=
    match cs with
    | '+' :: rest => (false, rest)
    | '-' :: rest => (true, rest)
    | rest => (false, rest)
  let neg := signDigits.1
  let digits := signDigits.2
  if digits.isEmpty then none
  else if digits.all (fun c => c.isDigit) then
    let n : Nat := digits.foldl (fun acc c => acc * 10 + (c.toNat - 48)) 0
    let v : Int := if neg then -(n : Int) else (n : Int)
    if v < -(2 ^ 63) ∨ 2 ^ 63 ≤ v then none else some v
  else none

/-! ### Auth Gate (authenticateMiddleware, main.go lines 254-268) -/

/-- The static token storage of main.go: authTokens = map[string]bool with one entry. -/
def authTokens : List String := [secretToken]

/-- Membership test in the token map (comma-ok lookup in Go). -/
def inAuthTokens (t : String) : Bool :=
  authTokens.any (fun u => decide (t = u))

/-- authenticateMiddleware distilled to its decision: given the Authorization
header value (empty string when the header is absent), is the request
forwarded to the wrapped handler? -/
def authenticateMiddleware (header : String) : Bool :=
  if header = "" ∨ strHasPre header bearerTag = false then false
  else inAuthTokens (strTrimPre header bearerTag)

/-! ### Ledger Gateway (callBlockchain, main.go lines 156-181)

The single HTTP call to the blockchain service is driven by an oracle
describing the outside world for that call: either the transport failed
(request construction, client.Do or body read - every path of callBlockchain
that returns a non-nil error), or a response with some status code came back,
whose body is represented by the outcome of json.Unmarshal into
ManifestBatchUploadResponse (the only way both handlers consume it).  The
payload marshalling of a ManifestBatchUploadRequest value cannot fail. -/

deriving instance DecidableEq for Except

inductive LedgerOutcome where
  | transportError (msg : String)
  | response (status : Nat) (body : Except String ManifestBatchUploadResponse)
deriving DecidableEq, Repr

/-- The (respBody, statusCode, err) triple callBlockchain returns. -/
structure BlockchainCallResult where
  respBody : Option (Except String ManifestBatchUploadResponse)
  statusCode : Nat
  err : Option String
deriving DecidableEq, Repr

/-- callBlockchain: on any transport failure it returns (nil, 500, err); on a
completed exchange it returns the body, the upstream status and a nil error. -/
def callBlockchain : LedgerOutcome → BlockchainCallResult
  | LedgerOutcome.transportError m => { respBody := none, statusCode := 500, err := some m }
  | LedgerOutcome.response s b => { respBody := some b, statusCode := s, err := none }

/-- json.Unmarshal of the returned body bytes into ManifestBatchUploadResponse;
unmarshalling a nil byte slice fails. -/
def unmarshalMBUResponse : Option (Except String ManifestBatchUploadResponse) →
    Except String ManifestBatchUploadResponse
  | some b => b
  | none => Except.error emptyBodyUnmarshalErr

/-! ### Panic modelling -/

/-- A Go runtime panic raised inside a handler. -/
inductive GoPanic where
  | nilDeref
deriving DecidableEq, Repr

/-- err.Error() on an error value that may be nil: calling it on nil panics. -/
def errErrorStr : Option String → Except GoPanic String
  | some m => Except.ok m
  | none => Except.error GoPanic.nilDeref

/-! ### HTTP responses -/

/-- The body a handler writes, kept structured (the JSON error bodies of
main.go are renderings of reason/details pairs; the success body is the JSON
encoding of a PinStatus). -/
inductive RespBody where
  | text (s : String)
  | errorJson (reason : String) (details : String)
  | pinStatusJson (ps : PinStatus)
deriving DecidableEq, Repr

structure HttpResponse where
  status : Nat
  body : RespBody
deriving DecidableEq, Repr

/-! ### Content identifiers (the go-cid library surface the code touches) -/

/-- A value of the cid library's Cid type as the handlers see it: either the
zero value cid.Undef or the decoding of some string. -/
inductive GoCid where
  | undef
  | parsed (s : String)
deriving DecidableEq, Repr

/-- cid.Decode with its error discarded (the c, _ := cid.Decode(cidStr) idiom):
on a decoding error the zero value cid.Undef results. -/
def cidOrZero (dec : String → Except String GoCid) (s : String) : GoCid :=
  match dec s with
  | Except.ok c => c
  | Except.error _ => GoCid.undef

/-! ### handleIPFSPinRequest (main.go lines 183-231) -/

/-- The observable behaviour of one run of handleIPFSPinRequest: the response
written (or the panic that aborted the handler), the blockchain calls issued
and the cluster pin calls issued.  handleIPFSPinRequest contains no
ipfsClusterAPI.Pin invocation, so its pinCalls trace is empty on every path. -/
structure PinHandlerResult where
  outcome : Except GoPanic HttpResponse
  ledgerCalls : List ManifestBatchUploadRequest
  pinCalls : List GoCid
deriving DecidableEq, Repr

/-- The request translation inlined at main.go lines 198-211: one cid, the
configured pool id, replication factor 1 and one storage/IPFS job. -/
def translateToInternal (pinRequest : Pin) (poolID : Int) : ManifestBatchUploadRequest :=
  { cid := [pinRequest.cid]
    pool_id := poolID
    replication_factor := [1]
    manifest_metadata := [{ job := { work := storageWork, engine := ipfsEngine, uri := pinRequest.cid } }] }

/-- translateToIPFSPinStatus (main.go lines 233-242).  time.Now().Format(RFC3339)
is passed in as the pre-rendered timestamp nowRFC3339. -/
def translateToIPFSPinStatus (blockResp : ManifestBatchUploadResponse) (pinRequest : Pin)
    (nowRFC3339 : String) : PinStatus :=
  { requestid := fmtInt blockResp.pool_id
    status := queuedStatus
    created := nowRFC3339
    pin := pinRequest
    delegates := [delegatePre ++ fmtInt blockResp.pool_id ++ delegateSuf]
    info := [(storerKey, blockResp.storer)] }

/-- handleIPFSPinRequest.  decodeBody is the outcome of
json.NewDecoder(r.Body).Decode into the Pin struct; poolName is the configured
globalConfig.PoolName string; ledger describes the outside world for the one
blockchain call; nowRFC3339 stands for the wall clock reading. -/
def handleIPFSPinRequest (decodeBody : Except String Pin) (poolName : String)
    (ledger : LedgerOutcome) (nowRFC3339 : String) : PinHandlerResult :=
  match decodeBody with
  | Except.error e =>
      { outcome := Except.ok { status := 400, body := RespBody.errorJson badRequestReason e }
        ledgerCalls := []
        pinCalls := [] }
  | Except.ok pinRequest =>
    match goAtoi poolName with
    | none =>
        { outcome := Except.ok
            { status := 400, body := RespBody.errorJson badRequestReason invalidPoolDetails }
          ledgerCalls := []
          pinCalls := [] }
    | some poolID =>
      let internalRequest := translateToInternal pinRequest poolID
      let call := callBlockchain ledger
      if call.err ≠ none ∨ call.statusCode ≠ 200 then
        match errErrorStr call.err with
        | Except.error p =>
            { outcome := Except.error p
              ledgerCalls := [internalRequest]
              pinCalls := [] }
        | Except.ok m =>
            { outcome := Except.ok
                { status := 500
                  body := RespBody.errorJson internalErrorReason (failedPinDetails ++ m) }
              ledgerCalls := [internalRequest]
              pinCalls := [] }
      else
        match unmarshalMBUResponse call.respBody with
        | Except.error e =>
            { outcome := Except.ok
                { status := 500, body := RespBody.errorJson internalErrorReason e }
              ledgerCalls := [internalRequest]
              pinCalls := [] }
        | Except.ok blockchainResp =>
            { outcome := Except.ok
                { status := 200
                  body := RespBody.pinStatusJson
                    (translateToIPFSPinStatus blockchainResp pinRequest nowRFC3339) }
              ledgerCalls := [internalRequest]
              pinCalls := [] }

/-! ### The served surface (main, main.go lines 244-252)

main registers exactly one route, POST /pins handled by handleIPFSPinRequest,
behind authenticateMiddleware.  serveRequest is that composition. -/

def serveRequest (header : String) (decodeBody : Except String Pin) (poolName : String)
    (ledger : LedgerOutcome) (nowRFC3339 : String) : PinHandlerResult :=
  if authenticateMiddleware header = true then
    handleIPFSPinRequest decodeBody poolName ledger nowRFC3339
  else
    { outcome := Except.ok { status := 401, body := RespBody.text unauthorizedText }
      ledgerCalls := []
      pinCalls := [] }

/-! ### Cluster Pin Orchestrator (the loop of handleManifestBatchUpload,
main.go lines 140-151) -/

/-- The trace of the per-cid pin loop: the cluster pin calls issued (by the
Cid argument handed to ipfsClusterAPI.Pin, in order) and the failure log
lines written. -/
structure BatchTrace where
  pinCalls : List GoCid
  logs : List String
deriving DecidableEq, Repr

/-- The pin loop: for each cid string in order, decode it discarding the
error, call Pin on the result; on a pin error log and continue. dec models
cid.Decode and pinFn models ipfsClusterAPI.Pin with the recursive-mode
options (its success value is not consumed). -/
def clusterPinLoop (dec : String → Except String GoCid) (pinFn : GoCid → Except String Unit) :
    List String → BatchTrace
  | [] => { pinCalls := [], logs := [] }
  | cidStr :: rest =>
      let c := cidOrZero dec cidStr
      let t := clusterPinLoop dec pinFn rest
      match pinFn c with
      | Except.ok _ => { pinCalls := c :: t.pinCalls, logs := t.logs }
      | Except.error e =>
          { pinCalls := c :: t.pinCalls
            logs := (pinFailPre ++ cidStr ++ pinFailMid ++ e) :: t.logs }

/-! ### handleManifestBatchUpload (main.go lines 116-154)

This handler is defined in main.go but registered on no route by main; it is
embedded because it is the only code containing the cluster pin loop. -/

/-- The observable behaviour of one run of handleManifestBatchUpload.  This
handler never calls err.Error() on a possibly-nil error, so it cannot panic
and its response is a plain HttpResponse. -/
structure BatchHandlerResult where
  response : HttpResponse
  ledgerCalls : List ManifestBatchUploadRequest
  pinCalls : List GoCid
  logs : List String
deriving DecidableEq, Repr

/-- handleManifestBatchUpload: decode the batch request, call the blockchain,
on a transport error reply with the returned status, otherwise unmarshal the
body, run the pin loop over the accepted cid list and reply 200 with a text
body that does not depend on any pin outcome. -/
def handleManifestBatchUpload (decodeBody : Except String ManifestBatchUploadRequest)
    (ledger : LedgerOutcome) (dec : String → Except String GoCid)
    (pinFn : GoCid → Except String Unit) : BatchHandlerResult :=
  match decodeBody with
  | Except.error e =>
      { response := { status := 400, body := RespBody.text e }
        ledgerCalls := []
        pinCalls := []
        logs := [] }
  | Except.ok req =>
    let call := callBlockchain ledger
    if call.err ≠ none then
      { response := { status := call.statusCode, body := RespBody.text blockchainFailedText }
        ledgerCalls := [req]
        pinCalls := []
        logs := [] }
    else
      match unmarshalMBUResponse call.respBody with
      | Except.error _ =>
          { response := { status := 500, body := RespBody.text decodeFailedText }
            ledgerCalls := [req]
            pinCalls := []
            logs := [] }
      | Except.ok blockchainResp =>
          let t := clusterPinLoop dec pinFn blockchainResp.cid
          { response :=
              { status := 200
                body := RespBody.text (pinnedOkPre ++ fmtStrSlice blockchainResp.cid) }
            ledgerCalls := [req]
            pinCalls := t.pinCalls
            logs := t.logs }

/-! ### A fragment of encoding/json sufficient for decoding a request body
into the Pin struct (exact-case keys; later duplicate keys overwrite; a JSON
null leaves the zero value; a non-object top level is a type error; unknown
object keys are ignored; a non-string where a string field is expected is a
type error). -/

inductive Json where
  | null
  | boolean (b : Bool)
  | num (n : Int)
  | str (s : String)
  | arr (xs : List Json)
  | obj (fields : List (String × Json))

def cidKey : String := "cid"

def nameKey : String := "name"

def originsKey : String := "origins"

def metaKey : String := "meta"

def typeErrDetails : String := "json: cannot unmarshal value into Go value"

/-- Decode a JSON value standing where a Go string is expected. -/
def jStr : Json → Except String String
  | Json.str s => Except.ok s
  | _ => Except.error typeErrDetails

/-- Decode a JSON value standing where a Go []string is expected. -/
def jStrList : Json → Except String (List String)
  | Json.null => Except.ok []
  | Json.arr xs => xs.mapM jStr
  | _ => Except.error typeErrDetails

/-- Decode a JSON value standing where a Go map[string]string is expected. -/
def jStrMap : Json → Except String (List (String × String))
  | Json.null => Except.ok []
  | Json.obj fs => fs.mapM (fun p => (jStr p.2).map (fun v => (p.1, v)))
  | _ => Except.error typeErrDetails

/-- Apply one object field to the Pin being built; keys other than the four
struct tags are ignored, as encoding/json does. -/
def applyPinField (p : Pin) (key : String) (v : Json) : Except String Pin :=
  if key = cidKey then (jStr v).map (fun s => { p with cid := s })
  else if key = nameKey then (jStr v).map (fun s => { p with name := s })
  else if key = originsKey then (jStrList v).map (fun xs => { p with origins := xs })
  else if key = metaKey then (jStrMap v).map (fun m => { p with meta := m })
  else Except.ok p

/-- json.NewDecoder(r.Body).Decode(&pinRequest) for a well-formed JSON body:
the decoding of one Json value into the freshly-declared (zero) Pin struct. -/
def goUnmarshalPin : Json → Except String Pin
  | Json.null => Except.ok zeroPin
  | Json.obj fields => fields.foldlM (fun p kv => applyPinField p kv.1 kv.2) zeroPin
  | _ => Except.error typeErrDetails

/-! ### Concrete example values used by witnesses and counterexamples -/

def cidEx : String := "bafyExampleCid"

def poolNameEx : String := "7"

def badPoolEx : String := "x"

def nowEx : String := "2026-01-01T00:00:00Z"

def storerEx : String := "node-A"

def transportMsgEx : String := "connection refused"

def unmarshalMsgEx : String := "invalid character"

def badCidEx : String := "not-a-cid"

def badCidErr : String := "selected encoding not supported"

def pinEx : Pin := { cid := cidEx, name := "", origins := [], meta := [] }

def respEx : ManifestBatchUploadResponse := { pool_id := 7, storer := storerEx, cid := [cidEx] }

def bearerEx : String := bearerTag ++ secretToken

def emptyHeaderEx : String := ""

/-- A cid.Decode oracle that fails on every input. -/
def decFailEx : String → Except String GoCid := fun _ => Except.error badCidErr

/-- A cluster Pin oracle that accepts every submission. -/
def pinOkEx : GoCid → Except String Unit := fun _ => Except.ok ()

/-! ### Shared helper lemmas about the handler -/

/-- With a passing Auth Gate, serveRequest is exactly the wrapped handler. -/
theorem serveRequestAuthEq (header : String) (decodeBody : Except String Pin)
    (poolName : String) (ledger : LedgerOutcome) (now : String)
    (hauth : authenticateMiddleware header = true) :
    serveRequest header decodeBody poolName ledger now =
      handleIPFSPinRequest decodeBody poolName ledger now := by
  simp [serveRequest, hauth]

/-- Once the pool id parses, the handler issues exactly one blockchain call,
carrying the translated request, on every ledger outcome. -/
theorem handleLedgerCallsEq (pin : Pin) (poolName : String) (pid : Int)
    (ledger : LedgerOutcome) (now : String) (hpool : goAtoi poolName = some pid) :
    (handleIPFSPinRequest (Except.ok pin) poolName ledger now).ledgerCalls =
      [translateToInternal pin pid] := by
  cases ledger with
  | transportError m =>
      simp [handleIPFSPinRequest, hpool, callBlockchain, errErrorStr]
  | response s b =>
      by_cases hs : s = 200
      · subst hs
        cases b with
        | error e => simp [handleIPFSPinRequest, hpool, callBlockchain, unmarshalMBUResponse]
        | ok resp => simp [handleIPFSPinRequest, hpool, callBlockchain, unmarshalMBUResponse]
      · simp [handleIPFSPinRequest, hpool, callBlockchain, errErrorStr, hs]

/-- The fully-successful run of handleIPFSPinRequest: status-200 ledger
response with a decodable body. -/
theorem handleSuccessEq (pin : Pin) (poolName : String) (pid : Int)
    (resp : ManifestBatchUploadResponse) (now : String) (hpool : goAtoi poolName = some pid) :
    handleIPFSPinRequest (Except.ok pin) poolName
        (LedgerOutcome.response 200 (Except.ok resp)) now =
      { outcome := Except.ok
          { status := 200
            body := RespBody.pinStatusJson (translateToIPFSPinStatus resp pin now) }
        ledgerCalls := [translateToInternal pin pid]
        pinCalls := [] } := by
  simp [handleIPFSPinRequest, hpool, callBlockchain, unmarshalMBUResponse]

/-! ### Claim theorems -/

/-- Claim C3: in handleIPFSPinRequest, the error branch taken when the
blockchain call's status code is not 200 unconditionally calls err.Error();
whenever the HTTP call itself succeeded (err is nil) but the status is not
200, this dereferences the nil error, so the handler panics instead of
writing the 500 error response. -/
theorem errorBranchPanicsOnNilErr (pin : Pin) (poolName : String) (pid : Int) (s : Nat)
    (b : Except String ManifestBatchUploadResponse) (now : String)
    (hpool : goAtoi poolName = some pid) (hs : s ≠ 200) :
    handleIPFSPinRequest (Except.ok pin) poolName (LedgerOutcome.response s b) now =
      { outcome := Except.error GoPanic.nilDeref
        ledgerCalls := [translateToInternal pin pid]
        pinCalls := [] } := by
  simp [handleIPFSPinRequest, hpool, callBlockchain, errErrorStr, hs]

/-- Witness for C3: the ledger answers 503 with a well-formed transport, and
the handler run ends in the nil-dereference panic. -/
theorem errorBranchPanicsOnNilErrWitness :
    goAtoi poolNameEx = some 7 ∧ (503 : Nat) ≠ 200 ∧
    handleIPFSPinRequest (Except.ok pinEx) poolNameEx
        (LedgerOutcome.response 503 (Except.error unmarshalMsgEx)) nowEx =
      { outcome := Except.error GoPanic.nilDeref
        ledgerCalls := [translateToInternal pinEx 7]
        pinCalls := [] } :=
  ⟨by decide, by decide,
   errorBranchPanicsOnNilErr pinEx poolNameEx 7 503 (Except.error unmarshalMsgEx) nowEx
     (by decide) (by decide)⟩

/-- Claim C4: a request whose Authorization header is missing or empty, does
not start with the Bearer prefix, or carries a credential outside the static
authorized-token set is answered 401 with no translator, ledger or cluster
component invoked; a request carrying a credential of the set is forwarded
unchanged to the handler. -/
theorem authGateTotal (header : String) (decodeBody : Except String Pin) (poolName : String)
    (ledger : LedgerOutcome) (now : String) :
    ((header = "" ∨ strHasPre header bearerTag = false ∨
        inAuthTokens (strTrimPre header bearerTag) = false) →
      serveRequest header decodeBody poolName ledger now =
        { outcome := Except.ok { status := 401, body := RespBody.text unauthorizedText }
          ledgerCalls := []
          pinCalls := [] })
    ∧ (∀ t, inAuthTokens t = true → header = bearerTag ++ t →
      serveRequest header decodeBody poolName ledger now =
        handleIPFSPinRequest decodeBody poolName ledger now) := by
  constructor
  · intro h
    have hfalse : authenticateMiddleware header = false := by
      unfold authenticateMiddleware
      rcases h with h | h | h
      · simp [h]
      · simp [h]
      · by_cases h1 : header = ""
        · simp [h1]
        · by_cases h2 : strHasPre header bearerTag = true
          · simp [h1, h2, h]
          · simp [h1, h2]
    simp [serveRequest, hfalse]
  · intro t ht he
    have hts : t = secretToken := by
      simpa [inAuthTokens, authTokens] using ht
    subst hts
    subst he
    have hok : authenticateMiddleware (bearerTag ++ secretToken) = true := by decide
    simp [serveRequest, hok]

/-- Witness for C4: the empty header is rejected 401, and the configured
token is forwarded to the handler. -/
theorem authGateTotalWitness :
    (emptyHeaderEx = "" ∨ strHasPre emptyHeaderEx bearerTag = false ∨
        inAuthTokens (strTrimPre emptyHeaderEx bearerTag) = false)
    ∧ serveRequest emptyHeaderEx (Except.ok pinEx) poolNameEx
        (LedgerOutcome.transportError transportMsgEx) nowEx =
        { outcome := Except.ok { status := 401, body := RespBody.text unauthorizedText }
          ledgerCalls := []
          pinCalls := [] }
    ∧ inAuthTokens secretToken = true
    ∧ bearerEx = bearerTag ++ secretToken
    ∧ serveRequest bearerEx (Except.ok pinEx) poolNameEx
        (LedgerOutcome.transportError transportMsgEx) nowEx =
        handleIPFSPinRequest (Except.ok pinEx) poolNameEx
          (LedgerOutcome.transportError transportMsgEx) nowEx :=
  ⟨Or.inl rfl,
   (authGateTotal emptyHeaderEx (Except.ok pinEx) poolNameEx
      (LedgerOutcome.transportError transportMsgEx) nowEx).1 (Or.inl rfl),
   by decide, rfl,
   (authGateTotal bearerEx (Except.ok pinEx) poolNameEx
      (LedgerOutcome.transportError transportMsgEx) nowEx).2 secretToken (by decide) rfl⟩

/-- Claim C5: the orchestrator attempts exactly one pin submission per
ledger-accepted identifier, in the ledger's order; a failing identifier is
logged and aborts nothing; and the client-visible response of
handleManifestBatchUpload does not depend on any pin outcome. -/
theorem orchestratorAttemptsAll (dec : String → Except String GoCid)
    (pinFn pinFn2 : GoCid → Except String Unit) (cids : List String)
    (decodeBody : Except String ManifestBatchUploadRequest) (ledger : LedgerOutcome)
    (req : ManifestBatchUploadRequest) (resp : ManifestBatchUploadResponse) (s : Nat) :
    (clusterPinLoop dec pinFn cids).pinCalls = cids.map (cidOrZero dec)
    ∧ (clusterPinLoop dec pinFn cids).pinCalls.length = cids.length
    ∧ (clusterPinLoop dec pinFn cids).logs =
        cids.filterMap (fun str =>
          match pinFn (cidOrZero dec str) with
          | Except.ok _ => none
          | Except.error e => some (pinFailPre ++ str ++ pinFailMid ++ e))
    ∧ (handleManifestBatchUpload (Except.ok req)
          (LedgerOutcome.response s (Except.ok resp)) dec pinFn).pinCalls =
        resp.cid.map (cidOrZero dec)
    ∧ (handleManifestBatchUpload decodeBody ledger dec pinFn).response =
        (handleManifestBatchUpload decodeBody ledger dec pinFn2).response := by
  have hmap : ∀ l : List String,
      (clusterPinLoop dec pinFn l).pinCalls = l.map (cidOrZero dec) := by
    intro l
    induction l with
    | nil => rfl
    | cons s rest ih =>
        simp only [clusterPinLoop]
        cases hp : pinFn (cidOrZero dec s) <;> simp [hp, ih]
  have hlogs : ∀ l : List String,
      (clusterPinLoop dec pinFn l).logs =
        l.filterMap (fun str =>
          match pinFn (cidOrZero dec str) with
          | Except.ok _ => none
          | Except.error e => some (pinFailPre ++ str ++ pinFailMid ++ e)) := by
    intro l
    induction l with
    | nil => rfl
    | cons str rest ih =>
        simp only [clusterPinLoop, List.filterMap]
        cases hp : pinFn (cidOrZero dec str) <;> simp [hp, ih]
  refine ⟨hmap cids, by rw [hmap cids]; exact List.length_map cids (cidOrZero dec),
    hlogs cids, ?_, ?_⟩
  · simp [handleManifestBatchUpload, callBlockchain, unmarshalMBUResponse, hmap]
  cases decodeBody with
  | error e => rfl
  | ok req =>
      cases ledger with
      | transportError m => rfl
      | response s b =>
          cases b with
          | error e => rfl
          | ok resp => rfl

/-- Claim C9: a ledger-accepted identifier whose cid decoding fails is still
submitted to the cluster, with the zero-value identifier, and the loop
continues with the remaining identifiers. -/
theorem decodeFailureStillPins (dec : String → Except String GoCid)
    (pinFn : GoCid → Except String Unit) (s e : String) (rest : List String)
    (hdec : dec s = Except.error e) :
    cidOrZero dec s = GoCid.undef
    ∧ (clusterPinLoop dec pinFn (s :: rest)).pinCalls =
        GoCid.undef :: (clusterPinLoop dec pinFn rest).pinCalls := by
  have h0 : cidOrZero dec s = GoCid.undef := by simp [cidOrZero, hdec]
  refine ⟨h0, ?_⟩
  simp only [clusterPinLoop, h0]
  cases hp : pinFn GoCid.undef <;> simp [hp]

/-- Witness for C9: an always-failing decoder still yields one pin call per
identifier, the failed one submitted as the zero value. -/
theorem decodeFailureStillPinsWitness :
    decFailEx badCidEx = Except.error badCidErr
    ∧ (cidOrZero decFailEx badCidEx = GoCid.undef
    ∧ (clusterPinLoop decFailEx pinOkEx (badCidEx :: [cidEx])).pinCalls =
        GoCid.undef :: (clusterPinLoop decFailEx pinOkEx [cidEx]).pinCalls) :=
  ⟨rfl, decodeFailureStillPins decFailEx pinOkEx badCidEx badCidErr [cidEx] rfl⟩

/-- Counterexample to Claim C1: a fully successful authenticated POST /pins
run - valid token, decodable body, pool 7, ledger success listing one
accepted identifier - ends in the 200 PinStatus response, yet the number of
cluster pin submissions is 0, not the 1 the claim requires. -/
theorem pinsRouteNeverPinsCounterexample :
    (serveRequest bearerEx (Except.ok pinEx) poolNameEx
        (LedgerOutcome.response 200 (Except.ok respEx)) nowEx).outcome =
      Except.ok
        { status := 200
          body := RespBody.pinStatusJson (translateToIPFSPinStatus respEx pinEx nowEx) }
    ∧ respEx.cid.length = 1
    ∧ (serveRequest bearerEx (Except.ok pinEx) poolNameEx
        (LedgerOutcome.response 200 (Except.ok respEx)) nowEx).pinCalls.length = 0 := by
  decide

/-- Claim C1 (amended): for every authenticated POST /pins request whose
ledger call succeeds, the handler proceeds from the Ledger Gateway directly
to the Status Reconciler: it issues the one translated ledger call and zero
cluster pin submissions (the pin loop lives only in the unrouted
handleManifestBatchUpload), so in particular no ledger-rejected identifier
is ever pinned. -/
theorem pinsRouteLedgerSuccessNoPins (header : String) (pin : Pin) (poolName : String)
    (pid : Int) (resp : ManifestBatchUploadResponse) (now : String)
    (hauth : authenticateMiddleware header = true) (hpool : goAtoi poolName = some pid) :
    serveRequest header (Except.ok pin) poolName
        (LedgerOutcome.response 200 (Except.ok resp)) now =
      { outcome := Except.ok
          { status := 200
            body := RespBody.pinStatusJson (translateToIPFSPinStatus resp pin now) }
        ledgerCalls := [translateToInternal pin pid]
        pinCalls := [] } := by
  rw [serveRequestAuthEq _ _ _ _ _ hauth]
  exact handleSuccessEq pin poolName pid resp now hpool

/-- Witness for the amended C1. -/
theorem pinsRouteLedgerSuccessNoPinsWitness :
    authenticateMiddleware bearerEx = true ∧ goAtoi poolNameEx = some 7 ∧
    serveRequest bearerEx (Except.ok pinEx) poolNameEx
        (LedgerOutcome.response 200 (Except.ok respEx)) nowEx =
      { outcome := Except.ok
          { status := 200
            body := RespBody.pinStatusJson (translateToIPFSPinStatus respEx pinEx nowEx) }
        ledgerCalls := [translateToInternal pinEx 7]
        pinCalls := [] } :=
  ⟨by decide, by decide,
   pinsRouteLedgerSuccessNoPins bearerEx pinEx poolNameEx 7 respEx nowEx
     (by decide) (by decide)⟩

/-- Claim C2 (evaluated at the failing input): an authenticated POST /pins
whose ledger call completes with status 503 makes the handler panic on the
nil err.Error() dereference - no error response is written to the client -
while still performing zero cluster pin calls. -/
theorem non2xxStatusPanicsAtLedger503 :
    (serveRequest bearerEx (Except.ok pinEx) poolNameEx
        (LedgerOutcome.response 503 (Except.error unmarshalMsgEx)) nowEx).outcome =
      Except.error GoPanic.nilDeref
    ∧ (serveRequest bearerEx (Except.ok pinEx) poolNameEx
        (LedgerOutcome.response 503 (Except.error unmarshalMsgEx)) nowEx).pinCalls = [] := by
  decide

/-- Claim C6: on every successful POST /pins run the PinStatus has requestid
the decimal pool id, status queued unconditionally, created the wall-clock
RFC3339 timestamp the handler read, pin the original submitted object
verbatim, delegates one multiaddress embedding the pool id, and info the
storer label under the storer key. -/
theorem statusReconcilerFields (header : String) (pin : Pin) (poolName : String) (pid : Int)
    (resp : ManifestBatchUploadResponse) (now : String)
    (hauth : authenticateMiddleware header = true) (hpool : goAtoi poolName = some pid) :
    (serveRequest header (Except.ok pin) poolName
        (LedgerOutcome.response 200 (Except.ok resp)) now).outcome =
      Except.ok
        { status := 200
          body := RespBody.pinStatusJson
            { requestid := fmtInt resp.pool_id
              status := queuedStatus
              created := now
              pin := pin
              delegates := [delegatePre ++ fmtInt resp.pool_id ++ delegateSuf]
              info := [(storerKey, resp.storer)] } } := by
  rw [serveRequestAuthEq _ _ _ _ _ hauth, handleSuccessEq pin poolName pid resp now hpool]
  rfl

/-- Witness for C6. -/
theorem statusReconcilerFieldsWitness :
    authenticateMiddleware bearerEx = true ∧ goAtoi poolNameEx = some 7 ∧
    (serveRequest bearerEx (Except.ok pinEx) poolNameEx
        (LedgerOutcome.response 200 (Except.ok respEx)) nowEx).outcome =
      Except.ok
        { status := 200
          body := RespBody.pinStatusJson
            { requestid := fmtInt respEx.pool_id
              status := queuedStatus
              created := nowEx
              pin := pinEx
              delegates := [delegatePre ++ fmtInt respEx.pool_id ++ delegateSuf]
              info := [(storerKey, respEx.storer)] } } :=
  ⟨by decide, by decide,
   statusReconcilerFields bearerEx pinEx poolNameEx 7 respEx nowEx (by decide) (by decide)⟩

/-- Claim C7: with a parsing pool id, the Request Translator output sent to
the ledger is exactly one logical identifier - cid list [request.cid], pool
id the parsed integer, replication factor [1] and one storage/IPFS job with
uri request.cid - with all three sequences of length 1. -/
theorem translatorShape (header : String) (pin : Pin) (poolName : String) (pid : Int)
    (ledger : LedgerOutcome) (now : String)
    (hauth : authenticateMiddleware header = true) (hpool : goAtoi poolName = some pid) :
    (serveRequest header (Except.ok pin) poolName ledger now).ledgerCalls =
      [{ cid := [pin.cid]
         pool_id := pid
         replication_factor := [1]
         manifest_metadata :=
           [{ job := { work := storageWork, engine := ipfsEngine, uri := pin.cid } }] }]
    ∧ (translateToInternal pin pid).cid.length = 1
    ∧ (translateToInternal pin pid).replication_factor.length = 1
    ∧ (translateToInternal pin pid).manifest_metadata.length = 1 := by
  refine ⟨?_, rfl, rfl, rfl⟩
  rw [serveRequestAuthEq _ _ _ _ _ hauth]
  exact handleLedgerCallsEq pin poolName pid ledger now hpool

/-- Witness for C7. -/
theorem translatorShapeWitness :
    authenticateMiddleware bearerEx = true ∧ goAtoi poolNameEx = some 7 ∧
    ((serveRequest bearerEx (Except.ok pinEx) poolNameEx
        (LedgerOutcome.transportError transportMsgEx) nowEx).ledgerCalls =
      [{ cid := [pinEx.cid]
         pool_id := 7
         replication_factor := [1]
         manifest_metadata :=
           [{ job := { work := storageWork, engine := ipfsEngine, uri := pinEx.cid } }] }]
    ∧ (translateToInternal pinEx 7).cid.length = 1
    ∧ (translateToInternal pinEx 7).replication_factor.length = 1
    ∧ (translateToInternal pinEx 7).manifest_metadata.length = 1) :=
  ⟨by decide, by decide,
   translatorShape bearerEx pinEx poolNameEx 7 (LedgerOutcome.transportError transportMsgEx)
     nowEx (by decide) (by decide)⟩

/-- Claim C8: an authenticated POST /pins under a pool name that does not
parse as an integer is answered 400 with a BAD_REQUEST error body, with no
blockchain call and no cluster pin call, and without crashing the process
(the outcome is a written response, not a panic). -/
theorem invalidPoolRejected (header : String) (decodeBody : Except String Pin)
    (poolName : String) (ledger : LedgerOutcome) (now : String)
    (hauth : authenticateMiddleware header = true) (hpool : goAtoi poolName = none) :
    ∃ details, serveRequest header decodeBody poolName ledger now =
      { outcome := Except.ok
          { status := 400, body := RespBody.errorJson badRequestReason details }
        ledgerCalls := []
        pinCalls := [] } := by
  rw [serveRequestAuthEq _ _ _ _ _ hauth]
  cases decodeBody with
  | error e => exact ⟨e, by simp [handleIPFSPinRequest]⟩
  | ok pin => exact ⟨invalidPoolDetails, by simp [handleIPFSPinRequest, hpool]⟩

/-- Witness for C8: pool name x. -/
theorem invalidPoolRejectedWitness :
    authenticateMiddleware bearerEx = true ∧ goAtoi badPoolEx = none ∧
    (∃ details, serveRequest bearerEx (Except.ok pinEx) badPoolEx
        (LedgerOutcome.transportError transportMsgEx) nowEx =
      { outcome := Except.ok
          { status := 400, body := RespBody.errorJson badRequestReason details }
        ledgerCalls := []
        pinCalls := [] }) :=
  ⟨by decide, by decide,
   invalidPoolRejected bearerEx (Except.ok pinEx) badPoolEx
     (LedgerOutcome.transportError transportMsgEx) nowEx (by decide) (by decide)⟩

/-- Claim C10: every body decodable into the Pin struct proceeds to the
ledger call - the cid field is never validated - and the empty object
decodes to the zero Pin, so the ledger receives the one-element cid list
containing the empty string. -/
theorem missingCidNotRejected (header : String) (poolName : String) (pid : Int) (j : Json)
    (p : Pin) (ledger : LedgerOutcome) (now : String)
    (hauth : authenticateMiddleware header = true)
    (hpool : goAtoi poolName = some pid)
    (hdec : goUnmarshalPin j = Except.ok p) :
    (serveRequest header (goUnmarshalPin j) poolName ledger now).ledgerCalls =
      [translateToInternal p pid]
    ∧ goUnmarshalPin (Json.obj []) = Except.ok zeroPin
    ∧ (serveRequest header (goUnmarshalPin (Json.obj [])) poolName ledger now).ledgerCalls =
        [translateToInternal zeroPin pid]
    ∧ (translateToInternal zeroPin pid).cid = [""] := by
  refine ⟨?_, rfl, ?_, rfl⟩
  · rw [serveRequestAuthEq _ _ _ _ _ hauth, hdec]
    exact handleLedgerCallsEq p poolName pid ledger now hpool
  · rw [serveRequestAuthEq _ _ _ _ _ hauth]
    exact handleLedgerCallsEq zeroPin poolName pid ledger now hpool

/-- Witness for C10: the empty JSON object body. -/
theorem missingCidNotRejectedWitness :
    authenticateMiddleware bearerEx = true ∧ goAtoi poolNameEx = some 7
    ∧ goUnmarshalPin (Json.obj []) = Except.ok zeroPin
    ∧ ((serveRequest bearerEx (goUnmarshalPin (Json.obj [])) poolNameEx
          (LedgerOutcome.transportError transportMsgEx) nowEx).ledgerCalls =
        [translateToInternal zeroPin 7]
    ∧ goUnmarshalPin (Json.obj []) = Except.ok zeroPin
    ∧ (serveRequest bearerEx (goUnmarshalPin (Json.obj [])) poolNameEx
          (LedgerOutcome.transportError transportMsgEx) nowEx).ledgerCalls =
        [translateToInternal zeroPin 7]
    ∧ (translateToInternal zeroPin 7).cid = [""]) :=
  ⟨by decide, by decide, rfl,
   missingCidNotRejected bearerEx poolNameEx 7 (Json.obj []) zeroPin
     (LedgerOutcome.transportError transportMsgEx) nowEx (by decide) (by decide) rfl⟩

end IpfsPinGateway
